import Mathlib

/-!
Shallow embedding of the SteamNameCheck username checker (src/main.py).

The program checks Steam username availability.  A CheckerThread probes
one username by fetching its profile page and classifying the response
body; candidates come either from a line-oriented file or from a random
generator filtered against a persisted JSON list of previously checked
names.  A Qt MainWindow owns the thread list and the start/stop logic.

Modelling conventions:
* the HTTP transport is a function from username to either a response
  body or an error message (the body of the aiohttp GET);
* side effects (signal emissions, file appends, sleeps, persists) are
  explicit event traces in the order the code performs them;
* the cooperative `self.running` flag is a schedule `Nat → Bool` giving
  the flag value observed at the i-th between-probe check;
* `str.splitlines` is modelled for the line endings of text files
  (LF, CRLF, lone CR);
* Python float progress arithmetic `int((i+1)/total*100)` is modelled by
  exact natural division `(i+1)*100/total`; at the endpoint `i+1 = total`
  both are exactly 100, which is all the claims use.
-/

namespace SteamNameCheck

/-! ### Response classification (CheckerThread.check_username, main.py 72-88) -/

/-- The sentinel marker whose presence in the response body denotes the
Steam error page for a nonexistent identity (main.py line 79). -/
def errorMarker : String := "<div class=\"error_ctn\">"

/-- Character-list test: the first list is an initial segment of the second. -/
def charsStartWith : List Char → List Char → Bool
  | [], _ => true
  | _ :: _, [] => false
  | p :: ps, c :: cs => p == c && charsStartWith ps cs

/-- Character-list substring test, modelling Python's `pat in text`. -/
def charsContain (pat : List Char) : List Char → Bool
  | [] => pat.isEmpty
  | c :: cs => charsStartWith pat (c :: cs) || charsContain pat cs

/-- Whether the response body contains the error-page marker
(`'<div class="error_ctn">' in text`, main.py line 79). -/
def containsMarker (text : String) : Bool :=
  charsContain errorMarker.data text.data

/-- The transport capability: maps a username to the fetched response body,
or to the message of the raised exception (timeout, DNS, reset, ...). -/
def Transport : Type := String → Except String String

/-- One observable effect of CheckerThread.check_username, in program order. -/
inductive ProbeEffect where
  | emitAvailable (username : String)
  | appendAvailableFile (username : String)
  | emitTaken (username : String)
  | emitError (username : String) (msg : String)
  | sleepDelay
  deriving DecidableEq, Repr

/-- Effect trace of CheckerThread.check_username (main.py 72-88): on a
response containing the marker it first emits to the available log, then
appends the username to available.txt; on a marker-free response it emits
to the taken log; on a transport exception it emits the error to the taken
log; in every case it then sleeps the inter-probe delay. -/
def check_username (fetch : Transport) (username : String) : List ProbeEffect :=
  match fetch username with
  | Except.ok text =>
      if containsMarker text then
        [ProbeEffect.emitAvailable username,
         ProbeEffect.appendAvailableFile username,
         ProbeEffect.sleepDelay]
      else
        [ProbeEffect.emitTaken username, ProbeEffect.sleepDelay]
  | Except.error e =>
      [ProbeEffect.emitError username e, ProbeEffect.sleepDelay]

/-- Probe outcome classification. -/
inductive Classification where
  | available
  | taken
  | error (msg : String)
  deriving DecidableEq, Repr

/-- Classification performed by check_username's branch on the response
body (main.py 79-86): marker present means the identity does not exist,
hence the name is available; absent means taken; exception means error. -/
def probe (fetch : Transport) (username : String) : Classification :=
  match fetch username with
  | Except.ok text =>
      if containsMarker text then Classification.available
      else Classification.taken
  | Except.error e => Classification.error e

/-- Response body of the fake transport for a handle with no identity:
the Steam error page containing the marker. -/
def abcBody : String :=
  "<html><div class=\"error_ctn\">No profile could be found.</div></html>"

/-- Response body of the fake transport for an existing profile:
a normal profile page without the marker. -/
def bobBody : String :=
  "<html><div class=\"profile_header\">bob</div></html>"

/-- Fixed fake transport: the error-page body for handle abc, a normal
profile page for every other handle. -/
def fakeTransport : Transport := fun username =>
  if username = "abc" then Except.ok abcBody else Except.ok bobBody

/-! ### Persisted dedup store (main.py 34-51) -/

/-- State of the checked_usernames.json backing store: missing file,
unparseable contents, or a valid JSON list of strings. -/
inductive Store where
  | missing
  | corrupt
  | valid (usernames : List String)
  deriving DecidableEq, Repr

/-- Effect of load_checked_usernames (main.py 34-43): a missing file
(FileNotFoundError) yields the empty list; any other failure prints a
warning and yields the empty list; a valid store yields its contents.
Returns the loaded list paired with whether a warning was printed. -/
def load_checked_usernames : Store → List String × Bool
  | Store.missing => ([], false)
  | Store.corrupt => ([], true)
  | Store.valid usernames => (usernames, false)

/-- Effect of save_checked_usernames (main.py 45-51): rewrites the JSON
store with the given list (the success path; a write failure is caught
and logged, leaving the store as it was). -/
def save_checked_usernames (usernames : List String) : Store :=
  Store.valid usernames

/-! ### Generate mode (CheckerThread.generate_and_check_usernames, main.py 108-115) -/

/-- Observable event of one iteration of the generation loop: a persist of
the dedup store followed by the probe of the accepted candidate. -/
inductive GenEvent where
  | persist (store : Store)
  | probeCandidate (username : String)
  deriving DecidableEq, Repr

/-- State threaded through the generation loop: the in-memory
checked_usernames list, the candidates handed to check_username in order,
the current state of the backing store, and the event trace. -/
structure GenState where
  checked : List String
  produced : List String
  persisted : Store
  events : List GenEvent
  deriving Repr

/-- Acceptance path of the generation loop body (main.py 112-115): append
the fresh candidate to checked_usernames, persist the updated list, then
probe the candidate. -/
def genAccept (s : GenState) (username : String) : GenState :=
  let checked := s.checked ++ [username]
  { checked := checked
    produced := s.produced ++ [username]
    persisted := save_checked_usernames checked
    events := s.events ++ [GenEvent.persist (save_checked_usernames checked),
                           GenEvent.probeCandidate username] }

/-- One iteration of the generation loop (main.py 110-115): draw a
candidate (none models generate_username's exception path returning None);
a falsy draw (None or the empty string) or a draw already present in
checked_usernames is rejected, otherwise it is accepted. -/
def genStep (s : GenState) (draw : Option String) : GenState :=
  match draw with
  | none => s
  | some username =>
      if username ≠ "" ∧ username ∉ s.checked then genAccept s username else s

/-- The generation loop run over a finite schedule of random draws,
starting from the dedup store loaded at thread construction
(main.py 69, 108-115). -/
def generate_and_check_usernames (store : Store) (draws : List (Option String)) :
    GenState :=
  draws.foldl genStep
    { checked := (load_checked_usernames store).1
      produced := []
      persisted := store
      events := [] }

/-- Well-formed generation traces: a sequence of persist-then-probe blocks
in which each probed candidate is contained in the list persisted just
before the probe. -/
inductive PersistThenProbe : List GenEvent → Prop
  | nil : PersistThenProbe []
  | block (checked : List String) (username : String) (rest : List GenEvent) :
      username ∈ checked →
      PersistThenProbe rest →
      PersistThenProbe
        (GenEvent.persist (Store.valid checked) ::
          GenEvent.probeCandidate username :: rest)

/-! ### File mode (CheckerThread.check_usernames_from_file, main.py 90-106) -/

/-- Python str.splitlines restricted to the line endings of text files:
splits at LF, CRLF and lone CR, keeps empty lines, and produces no final
empty line for content ending in a line break. -/
def splitlinesAux (cur : List Char) : List Char → List (List Char)
  | [] => if cur.isEmpty then [] else [cur.reverse]
  | '\r' :: '\n' :: rest => cur.reverse :: splitlinesAux [] rest
  | '\n' :: rest => cur.reverse :: splitlinesAux [] rest
  | '\r' :: rest => cur.reverse :: splitlinesAux [] rest
  | c :: rest => splitlinesAux (c :: cur) rest

/-- The lines of the candidate file, as u.read().splitlines() computes
them (main.py 94). -/
def splitlines (content : String) : List String :=
  (splitlinesAux [] content.data).map List.asString

/-- Observable event of the file-mode worker.  A probeLine event stands
for one awaited check_username call on that line. -/
inductive FileEvent where
  | probeLine (username : String)
  | progress (pct : Nat)
  | noUsernames
  | readError (msg : String)
  deriving DecidableEq, Repr

/-- The per-line loop of check_usernames_from_file (main.py 100-104):
before each line the running flag is checked (index i names the i-th
check); when it is still set the line is probed and the progress
percentage emitted, otherwise the loop breaks. -/
def fileLoop (running : Nat → Bool) (total : Nat) : Nat → List String → List FileEvent
  | _, [] => []
  | i, username :: rest =>
      if running i then
        FileEvent.probeLine username ::
          FileEvent.progress ((i + 1) * 100 / total) ::
            fileLoop running total (i + 1) rest
      else []

/-- Effect trace of check_usernames_from_file (main.py 90-106): an open
failure is caught once and emitted as a single read-error message; a file
with no lines at all emits the no-usernames notice; otherwise every line
of splitlines (empty lines included) is fed through the loop. -/
def check_usernames_from_file (running : Nat → Bool)
    (file : Except String String) : List FileEvent :=
  match file with
  | Except.error e => [FileEvent.readError e]
  | Except.ok content =>
      let usernames := splitlines content
      if usernames.isEmpty then [FileEvent.noUsernames]
      else fileLoop running usernames.length 0 usernames

/-- The candidates probed by a file-mode trace, in order. -/
def probesOf (evs : List FileEvent) : List String :=
  evs.filterMap fun e =>
    match e with
    | FileEvent.probeLine username => some username
    | _ => none

/-- The progress percentages emitted by a file-mode trace, in order. -/
def progressOf (evs : List FileEvent) : List Nat :=
  evs.filterMap fun e =>
    match e with
    | FileEvent.progress pct => some pct
    | _ => none

/-! ### Signals, connections and the main-window lifecycle (main.py 54-58, 253-342) -/

/-- The Qt signals a CheckerThread can emit (main.py 55-58). -/
inductive Signal where
  | updateTakenLog
  | updateAvailableLog
  | updateProgress
  | finishedSignal
  deriving DecidableEq, Repr

/-- The MainWindow slots that can observe thread signals. -/
inductive Slot where
  | update_taken_log
  | update_available_log
  | update_progress
  | checking_finished_slot
  deriving DecidableEq, Repr

/-- Signal-slot connections made for each spawned thread in
MainWindow.start_checking (main.py 299-303).  The connection from
signal_finished to checking_finished is commented out in the source, so
the finished signal is connected to nothing. -/
def connections : List (Signal × Slot) :=
  [(Signal.updateTakenLog, Slot.update_taken_log),
   (Signal.updateAvailableLog, Slot.update_available_log),
   (Signal.updateProgress, Slot.update_progress)]

/-- The observer slots invoked when a thread emits a signal. -/
def deliver (s : Signal) : List Slot :=
  (connections.filter fun c => c.1 == s).map fun c => c.2

/-- The observer slots invoked for a whole signal trace. -/
def observerSlots (sigs : List Signal) : List Slot :=
  sigs.flatMap deliver

/-- The signal a probe effect emits, if any (file appends and sleeps emit
no signal). -/
def probeEffectSignal : ProbeEffect → Option Signal
  | ProbeEffect.emitAvailable _ => some Signal.updateAvailableLog
  | ProbeEffect.appendAvailableFile _ => none
  | ProbeEffect.emitTaken _ => some Signal.updateTakenLog
  | ProbeEffect.emitError _ _ => some Signal.updateTakenLog
  | ProbeEffect.sleepDelay => none

/-- The signals emitted for one file-mode event: a probed line emits the
signals of its check_username call, progress/notice/read-error events emit
their single signal (main.py 96, 104, 106). -/
def fileEventSignals (fetch : Transport) : FileEvent → List Signal
  | FileEvent.probeLine username =>
      (check_username fetch username).filterMap probeEffectSignal
  | FileEvent.progress _ => [Signal.updateProgress]
  | FileEvent.noUsernames => [Signal.updateTakenLog]
  | FileEvent.readError _ => [Signal.updateTakenLog]

/-- CheckerThread.run (main.py 125-132): runs the checks, then in the
finally block emits signal_finished exactly once. -/
def threadRun (workSignals : List Signal) : List Signal :=
  workSignals ++ [Signal.finishedSignal]

/-- Full signal trace of one file-mode worker that runs to natural
completion (never stopped). -/
def fileRunSignals (fetch : Transport) (file : Except String String) :
    List Signal :=
  threadRun
    ((check_usernames_from_file (fun _ => true) file).flatMap (fileEventSignals fetch))

/-- MainWindow.start_checking (main.py 292-308): unconditionally
constructs, connects and starts num_threads new CheckerThreads and
appends them to self.threads; there is no idle-state check and no
AlreadyRunning rejection, and the spawning does not depend on whether a
file-mode candidate file can be opened (the open happens later, inside
the worker).  Threads are named by consecutive ids. -/
def start_checking (threads : List Nat) (num_threads : Nat) : List Nat :=
  threads ++ (List.range num_threads).map fun i => threads.length + i

/-- Observable event of the stop path of the main window. -/
inductive StopEvent where
  | stopThread (tid : Nat)
  | waitThread (tid : Nat)
  | observerFinishedNotice
  deriving DecidableEq, Repr

/-- MainWindow.checking_finished (main.py 322-330): pops one thread from
the list when it is nonempty; when the list is then empty, shows the
completed notice (the single Finished notification the observer ever
sees).  Returns the remaining threads and the emitted events. -/
def checking_finished (threads : List Nat) : List Nat × List StopEvent :=
  let threads' := if threads.isEmpty then threads else threads.dropLast
  if threads'.isEmpty then (threads', [StopEvent.observerFinishedNotice])
  else (threads', [])

/-- MainWindow.stop_checking (main.py 332-342): stops then waits each
running thread in order, clears the thread list, and finally calls
checking_finished on the cleared list.  Returns the remaining threads and
the event trace. -/
def stop_checking (threads : List Nat) : List Nat × List StopEvent :=
  let evs := threads.flatMap fun tid => [StopEvent.stopThread tid, StopEvent.waitThread tid]
  let after := checking_finished []
  (after.1, evs ++ after.2)

/-- The generation loop with its cooperative flag made explicit: the
while-condition self.running (main.py 110) is checked at the top of each
iteration; index i names the i-th check. -/
def genLoopFlag (running : Nat → Bool) :
    Nat → GenState → List (Option String) → GenState
  | _, s, [] => s
  | i, s, draw :: rest =>
      if running i then genLoopFlag running (i + 1) (genStep s draw) rest else s

/-- Invariant of the generation loop, relative to the list loaded at
thread construction and the initial store. -/
def GenInv (init : List String) (store : Store) (s : GenState) : Prop :=
  s.checked = init ++ s.produced
  ∧ s.produced.Nodup
  ∧ (∀ u ∈ s.produced, u ∉ init)
  ∧ ((s.persisted = store ∧ s.produced = []) ∨ s.persisted = Store.valid s.checked)
  ∧ PersistThenProbe s.events

/-! ### Theorems -/

/-- C1: for every candidate whose probe completes with an HTTP response,
the probe is classified Available iff the response body contains the
error-page marker and Taken otherwise; the fixed fake transport yields
Available for abc and Taken for bob. -/
theorem C1_classification (fetch : Transport) (username body : String)
    (h : fetch username = Except.ok body) :
    (probe fetch username = Classification.available ↔ containsMarker body = true)
    ∧ (probe fetch username = Classification.taken ↔ containsMarker body = false)
    ∧ probe fakeTransport "abc" = Classification.available
    ∧ probe fakeTransport "bob" = Classification.taken := by
  refine ⟨?_, ?_, by decide, by decide⟩ <;>
  · unfold probe
    rw [h]
    by_cases hm : containsMarker body <;> simp [hm]

/-- Witness for C1 at the fake transport and handle abc. -/
theorem C1_classification_witness :
    (probe fakeTransport "abc" = Classification.available ↔ containsMarker abcBody = true)
    ∧ (probe fakeTransport "abc" = Classification.taken ↔ containsMarker abcBody = false)
    ∧ probe fakeTransport "abc" = Classification.available
    ∧ probe fakeTransport "bob" = Classification.taken :=
  C1_classification fakeTransport "abc" abcBody rfl

/-- C3 counterexample: in the trace of an Available probe the Available
event is emitted strictly before the candidate is appended to the
available-usernames file, so the append does not precede the emission as
the claim states. -/
theorem C3_append_before_emit_cex :
    check_username fakeTransport "abc"
      = [ProbeEffect.emitAvailable "abc", ProbeEffect.appendAvailableFile "abc",
         ProbeEffect.sleepDelay]
    ∧ ¬ (check_username fakeTransport "abc").indexOf
          (ProbeEffect.appendAvailableFile "abc")
        < (check_username fakeTransport "abc").indexOf
          (ProbeEffect.emitAvailable "abc") := by
  constructor
  · decide
  · decide

/-- C3 amended: for every probe whose trace appends the candidate to the
available-usernames file (i.e. every probe classified Available), the
trace is exactly emit-Available first, append second, then the delay: the
event reaches the observer before the durable append, not after it. -/
theorem C3_emit_then_append (fetch : Transport) (username : String)
    (h : ProbeEffect.appendAvailableFile username ∈ check_username fetch username) :
    check_username fetch username
      = [ProbeEffect.emitAvailable username,
         ProbeEffect.appendAvailableFile username,
         ProbeEffect.sleepDelay] := by
  cases hf : fetch username with
  | ok text =>
      by_cases hm : containsMarker text
      · simp [check_username, hf, hm]
      · simp [check_username, hf, hm] at h
  | error e =>
      simp [check_username, hf] at h

/-- Witness for C3 amended at the fake transport and handle abc. -/
theorem C3_emit_then_append_witness :
    check_username fakeTransport "abc"
      = [ProbeEffect.emitAvailable "abc",
         ProbeEffect.appendAvailableFile "abc",
         ProbeEffect.sleepDelay] :=
  C3_emit_then_append fakeTransport "abc" (by decide)

/-- C9: dedup-store loading is total and never fatal: a missing store
loads as the empty list without a warning, a corrupt store loads as the
empty list with a warning, and persisting any list then loading returns
that same list. -/
theorem C9_dedup_store_roundtrip :
    load_checked_usernames Store.missing = ([], false)
    ∧ load_checked_usernames Store.corrupt = ([], true)
    ∧ ∀ usernames : List String,
        load_checked_usernames (save_checked_usernames usernames)
          = (usernames, false) :=
  ⟨rfl, rfl, fun _ => rfl⟩

/-- Appending one persist-then-probe block to a well-formed generation
trace keeps it well formed. -/
theorem persistThenProbe_append (evs : List GenEvent) (checked : List String)
    (username : String) (h : PersistThenProbe evs) (hu : username ∈ checked) :
    PersistThenProbe
      (evs ++ [GenEvent.persist (Store.valid checked),
               GenEvent.probeCandidate username]) := by
  induction h with
  | nil => exact PersistThenProbe.block checked username [] hu PersistThenProbe.nil
  | block c u rest hc _ ih => exact PersistThenProbe.block c u _ hc ih

/-- One generation-loop iteration preserves the invariant. -/
theorem genStep_inv (init : List String) (store : Store) (s : GenState)
    (draw : Option String) (h : GenInv init store s) :
    GenInv init store (genStep s draw) := by
  obtain ⟨hc, hn, hni, hp, he⟩ := h
  cases draw with
  | none => exact ⟨hc, hn, hni, hp, he⟩
  | some u =>
      simp only [genStep]
      by_cases hacc : u ≠ "" ∧ u ∉ s.checked
      · rw [if_pos hacc]
        have hup : u ∉ s.produced := fun hmem =>
          hacc.2 (hc ▸ List.mem_append_right init hmem)
        have hui : u ∉ init := fun hmem =>
          hacc.2 (hc ▸ List.mem_append_left s.produced hmem)
        refine ⟨?_, ?_, ?_, ?_, ?_⟩
        · simp [genAccept, hc]
        · simp [genAccept, List.nodup_append, hn, hup]
        · intro v hv
          rcases List.mem_append.mp ((by simpa [genAccept] using hv) :
              v ∈ s.produced ++ [u]) with hv' | hv'
          · exact hni v hv'
          · rw [List.mem_singleton.mp hv']; exact hui
        · right; simp [genAccept, save_checked_usernames]
        · have hmem : u ∈ s.checked ++ [u] :=
            List.mem_append_right s.checked (List.mem_singleton.mpr rfl)
          simpa [genAccept, save_checked_usernames] using
            persistThenProbe_append s.events (s.checked ++ [u]) u he hmem
      · rw [if_neg hacc]; exact ⟨hc, hn, hni, hp, he⟩

/-- The generation loop preserves the invariant along any draw schedule. -/
theorem genFold_inv (init : List String) (store : Store)
    (draws : List (Option String)) (s : GenState) (h : GenInv init store s) :
    GenInv init store (draws.foldl genStep s) := by
  induction draws generalizing s with
  | nil => exact h
  | cons d rest ih => exact ih _ (genStep_inv init store s d h)

/-- The invariant holds of every complete generation run. -/
theorem generate_inv (store : Store) (draws : List (Option String)) :
    GenInv (load_checked_usernames store).1 store
      (generate_and_check_usernames store draws) := by
  apply genFold_inv
  exact ⟨by simp, List.nodup_nil, by simp, Or.inl ⟨rfl, rfl⟩, PersistThenProbe.nil⟩

/-- Every candidate a generation run produces is recorded in the store it
leaves behind. -/
theorem generate_produced_persisted (store : Store) (draws : List (Option String)) :
    (generate_and_check_usernames store draws).produced
      ⊆ (load_checked_usernames
          (generate_and_check_usernames store draws).persisted).1 := by
  obtain ⟨hc, _, _, hp, _⟩ := generate_inv store draws
  intro u hu
  rcases hp with ⟨_, hemp⟩ | hpv
  · rw [hemp] at hu; exact absurd hu (List.not_mem_nil u)
  · rw [hpv]
    simpa [load_checked_usernames, hc] using
      Or.inr hu

/-- C2: the generation loop never returns a candidate already present in
the loaded dedup list, every returned candidate is inserted and the
updated set persisted before the candidate is probed (the trace is a
sequence of persist-then-probe blocks whose persisted list contains the
probed candidate), and across two consecutive runs sharing the persisted
store no candidate is produced twice. -/
theorem C2_generate_dedup (store : Store) (d1 d2 : List (Option String)) :
    ((generate_and_check_usernames store d1).produced
      ++ (generate_and_check_usernames
            (generate_and_check_usernames store d1).persisted d2).produced).Nodup
    ∧ (generate_and_check_usernames store d1).produced.Disjoint
        (load_checked_usernames store).1
    ∧ (generate_and_check_usernames store d1).produced
        ⊆ (load_checked_usernames
            (generate_and_check_usernames store d1).persisted).1
    ∧ PersistThenProbe (generate_and_check_usernames store d1).events := by
  obtain ⟨hc1, hn1, hni1, hp1, he1⟩ := generate_inv store d1
  obtain ⟨hc2, hn2, hni2, hp2, he2⟩ :=
    generate_inv (generate_and_check_usernames store d1).persisted d2
  have hsub := generate_produced_persisted store d1
  refine ⟨?_, ?_, hsub, he1⟩
  · rw [List.nodup_append]
    exact ⟨hn1, hn2, fun u hu1 hu2 => hni2 u hu2 (hsub hu1)⟩
  · exact fun u hu1 hu2 => hni1 u hu1 hu2

/-- With the running flag always set, the file loop probes every line,
in order. -/
theorem fileLoop_probes (total i : Nat) (lines : List String) :
    probesOf (fileLoop (fun _ => true) total i lines) = lines := by
  induction lines generalizing i with
  | nil => rfl
  | cons u rest ih =>
      simp only [fileLoop, if_pos]
      simpa [probesOf] using ih (i + 1)

/-- With the running flag always set, the file loop over a nonempty line
list ends with the progress event for its final line. -/
theorem fileLoop_last_progress (total i : Nat) (lines : List String)
    (h : lines ≠ []) :
    (fileLoop (fun _ => true) total i lines).getLast?
      = some (FileEvent.progress ((i + lines.length) * 100 / total)) := by
  induction lines generalizing i with
  | nil => exact absurd rfl h
  | cons u rest ih =>
      cases rest with
      | nil => simp [fileLoop]
      | cons v rest' =>
          have hne : fileLoop (fun _ => true) total (i + 1) (v :: rest') ≠ [] := by
            simp [fileLoop]
          obtain ⟨t0, tl, htl⟩ := List.exists_cons_of_ne_nil hne
          rw [show fileLoop (fun _ => true) total i (u :: v :: rest')
                = FileEvent.probeLine u :: FileEvent.progress ((i + 1) * 100 / total)
                  :: fileLoop (fun _ => true) total (i + 1) (v :: rest') from by
              simp [fileLoop]]
          rw [htl, List.getLast?_cons_cons, List.getLast?_cons_cons, ← htl,
            ih (i + 1) (by simp)]
          have harg : i + 1 + (v :: rest').length = i + (u :: v :: rest').length := by
            simp only [List.length_cons]
            omega
          rw [harg]

/-- Each probe the file loop starts runs to completion: the trace carries
exactly one progress event per probe event, whatever the flag schedule. -/
theorem fileLoop_progress_per_probe (running : Nat → Bool) (total i : Nat)
    (lines : List String) :
    (progressOf (fileLoop running total i lines)).length
      = (probesOf (fileLoop running total i lines)).length := by
  induction lines generalizing i with
  | nil => rfl
  | cons u rest ih =>
      by_cases hr : running i
      · simp only [fileLoop, if_pos hr]
        simpa [probesOf, progressOf] using ih (i + 1)
      · simp [fileLoop, hr, probesOf, progressOf]

/-- With the flag cleared from the k-th between-probe check onwards, the
file loop probes exactly the lines before position k. -/
theorem fileLoop_stop_probes (k total : Nat) (lines : List String) (i : Nat) :
    probesOf (fileLoop (fun j => decide (j < k)) total i lines)
      = lines.take (k - i) := by
  induction lines generalizing i with
  | nil => simp [fileLoop, probesOf]
  | cons u rest ih =>
      by_cases hik : i < k
      · have htake : k - i = (k - (i + 1)) + 1 := by omega
        simp only [fileLoop, decide_eq_true hik, if_pos]
        rw [htake]
        simpa [probesOf] using ih (i + 1)
      · have htake : k - i = 0 := by omega
        simp [fileLoop, hik, htake, probesOf]

/-- C4 counterexample: the file with contents a, an empty line, then b has
two non-empty lines, yet an unstopped run probes three candidates — the
empty line is probed too (str.splitlines keeps interior empty lines), so
probe attempts are not one per non-empty line. -/
theorem C4_empty_line_probed_cex :
    splitlines "a\n\nb" = ["a", "", "b"]
    ∧ ((splitlines "a\n\nb").filter (fun u => u ≠ "")).length = 2
    ∧ probesOf (check_usernames_from_file (fun _ => true) (Except.ok "a\n\nb"))
        = ["a", "", "b"]
    ∧ ¬ (probesOf (check_usernames_from_file (fun _ => true)
          (Except.ok "a\n\nb"))).length = 2 := by
  refine ⟨by decide, by decide, by decide, by decide⟩

/-- C4 amended: for a File-mode run over a file with at least one line
that is not stopped early, exactly one probe attempt is made per line of
str.splitlines — empty lines included — in file order, and the trace ends
with the progress value 100. -/
theorem C4_file_mode_run (content : String) (h : splitlines content ≠ []) :
    probesOf (check_usernames_from_file (fun _ => true) (Except.ok content))
      = splitlines content
    ∧ (check_usernames_from_file (fun _ => true) (Except.ok content)).getLast?
      = some (FileEvent.progress 100) := by
  have hfalse : (splitlines content).isEmpty = false := by
    cases hs : splitlines content with
    | nil => exact absurd hs h
    | cons a l => rfl
  have hpos : 0 < (splitlines content).length := by
    cases hs : splitlines content with
    | nil => exact absurd hs h
    | cons a l => simp
  constructor
  · simp only [check_usernames_from_file, hfalse, Bool.false_eq_true, if_false]
    exact fileLoop_probes _ 0 _
  · simp only [check_usernames_from_file, hfalse, Bool.false_eq_true, if_false]
    rw [fileLoop_last_progress _ 0 _ h, Nat.zero_add,
      Nat.mul_div_cancel_left 100 hpos]

/-- Witness for C4 amended at a two-line file. -/
theorem C4_file_mode_run_witness :
    probesOf (check_usernames_from_file (fun _ => true) (Except.ok "abc\nbob"))
      = splitlines "abc\nbob"
    ∧ (check_usernames_from_file (fun _ => true) (Except.ok "abc\nbob")).getLast?
      = some (FileEvent.progress 100) :=
  C4_file_mode_run "abc\nbob" (by decide)

/-- With the flag cleared from the k-th check onwards, the generation loop
behaves exactly as the unflagged loop over the first k draws: no candidate
is pulled, accepted or probed once the flag has been observed clear. -/
theorem genLoopFlag_stop (k : Nat) (draws : List (Option String)) (i : Nat)
    (s : GenState) :
    genLoopFlag (fun j => decide (j < k)) i s draws
      = (draws.take (k - i)).foldl genStep s := by
  induction draws generalizing i s with
  | nil => simp [genLoopFlag]
  | cons d rest ih =>
      by_cases hik : i < k
      · have htake : k - i = (k - (i + 1)) + 1 := by omega
        simp only [genLoopFlag, decide_eq_true hik, if_pos]
        rw [htake]
        exact ih (i + 1) (genStep s d)
      · have htake : k - i = 0 := by omega
        simp [genLoopFlag, hik, htake]

/-- C6: cooperative cancellation.  Once the flag is cleared at the k-th
between-probe check, a file-mode worker probes exactly the lines before
position k and no further candidate, every probe it did start runs to
completion (one progress event per probe), and a generation worker is
indistinguishable from one given only the first k draws. -/
theorem C6_stop_cooperative (content : String) (k : Nat) (s : GenState)
    (draws : List (Option String)) :
    probesOf (check_usernames_from_file (fun j => decide (j < k)) (Except.ok content))
      = (splitlines content).take k
    ∧ (progressOf (check_usernames_from_file (fun j => decide (j < k))
          (Except.ok content))).length
      = (probesOf (check_usernames_from_file (fun j => decide (j < k))
          (Except.ok content))).length
    ∧ genLoopFlag (fun j => decide (j < k)) 0 s draws
      = (draws.take k).foldl genStep s := by
  refine ⟨?_, ?_, ?_⟩
  · by_cases hemp : (splitlines content).isEmpty
    · have hnil : splitlines content = [] := by
        cases hs : splitlines content with
        | nil => rfl
        | cons a l => rw [hs] at hemp; exact absurd hemp (by simp)
      simp [check_usernames_from_file, hnil, probesOf]
    · have hfalse : (splitlines content).isEmpty = false := by
        cases h' : (splitlines content).isEmpty with
        | false => rfl
        | true => exact absurd h' hemp
      simp only [check_usernames_from_file, hfalse, Bool.false_eq_true, if_false]
      simpa using fileLoop_stop_probes k _ (splitlines content) 0
  · by_cases hemp : (splitlines content).isEmpty
    · simp [check_usernames_from_file, hemp, probesOf, progressOf]
    · have hfalse : (splitlines content).isEmpty = false := by
        cases h' : (splitlines content).isEmpty with
        | false => rfl
        | true => exact absurd h' hemp
      simp only [check_usernames_from_file, hfalse, Bool.false_eq_true, if_false]
      exact fileLoop_progress_per_probe _ _ 0 _
  · simpa using genLoopFlag_stop k draws 0 s

/-- No probe effect ever maps to the finished signal. -/
theorem probeEffectSignal_ne_finished (eff : ProbeEffect) :
    probeEffectSignal eff ≠ some Signal.finishedSignal := by
  cases eff <;> simp [probeEffectSignal]

/-- The work of a file-mode worker never emits the finished signal; only
the finally block of CheckerThread.run does. -/
theorem finished_not_in_fileEventSignals (fetch : Transport) (e : FileEvent) :
    Signal.finishedSignal ∉ fileEventSignals fetch e := by
  cases e with
  | probeLine u =>
      intro hmem
      obtain ⟨eff, _, heq⟩ := List.mem_filterMap.mp hmem
      exact probeEffectSignal_ne_finished eff heq
  | progress p => simp [fileEventSignals]
  | noUsernames => simp [fileEventSignals]
  | readError m => simp [fileEventSignals]

/-- The stop/wait events of stop_checking contain no observer notice. -/
theorem stop_wait_no_notice (threads : List Nat) :
    (threads.flatMap fun tid =>
        [StopEvent.stopThread tid, StopEvent.waitThread tid]).count
      StopEvent.observerFinishedNotice = 0 := by
  induction threads with
  | nil => rfl
  | cons t rest ih => simpa [List.count_cons] using ih

/-- C5 counterexample: a two-line file-mode run that completes by natural
exhaustion emits its finished signal, but the signal is connected to no
slot, so the observer receives zero Finished notifications rather than
exactly one. -/
theorem C5_no_finished_on_exhaustion_cex :
    (fileRunSignals fakeTransport (Except.ok "abc\nbob")).count
        Signal.finishedSignal = 1
    ∧ deliver Signal.finishedSignal = []
    ∧ (observerSlots (fileRunSignals fakeTransport (Except.ok "abc\nbob"))).count
        Slot.checking_finished_slot = 0
    ∧ ¬ (observerSlots (fileRunSignals fakeTransport (Except.ok "abc\nbob"))).count
        Slot.checking_finished_slot = 1 := by
  refine ⟨by decide, by decide, by decide, by decide⟩

/-- C5 amended: each worker emits its finished signal exactly once per
run, but that signal reaches no observer slot (the connection is commented
out), so a run ending by natural exhaustion delivers no Finished
notification; only the explicit stop path notifies the observer, exactly
once, as the last event after every worker has been stopped and waited
on, leaving no running threads. -/
theorem C5_finished_delivery (fetch : Transport) (file : Except String String)
    (threads : List Nat) :
    (fileRunSignals fetch file).count Signal.finishedSignal = 1
    ∧ deliver Signal.finishedSignal = []
    ∧ ((stop_checking threads).2).count StopEvent.observerFinishedNotice = 1
    ∧ ((stop_checking threads).2).getLast? = some StopEvent.observerFinishedNotice
    ∧ (stop_checking threads).1 = [] := by
  refine ⟨?_, by decide, ?_, ?_, rfl⟩
  · have hwork : Signal.finishedSignal ∉
        (check_usernames_from_file (fun _ => true) file).flatMap
          (fileEventSignals fetch) := by
      intro hmem
      obtain ⟨e, _, hin⟩ := List.mem_flatMap.mp hmem
      exact finished_not_in_fileEventSignals fetch e hin
    simp [fileRunSignals, threadRun, List.count_append,
      List.count_eq_zero.mpr hwork]
  · simp [stop_checking, checking_finished, List.count_append,
      stop_wait_no_notice]
  · simp [stop_checking, checking_finished]

/-- C7 counterexample: calling start while one worker is already running
spawns and appends a second worker to the same run instead of rejecting
the call, so start while Running is not side-effect free. -/
theorem C7_already_running_cex :
    start_checking [0] 1 = [0, 1]
    ∧ ¬ (start_checking [0] 1).length = ([0] : List Nat).length := by
  refine ⟨by decide, by decide⟩

/-- C7 amended: start_checking performs no idle-state check and raises no
AlreadyRunning error: invoked while workers are already running it spawns
num_threads additional workers appended after the existing ones, and the
existing workers are left in place. -/
theorem C7_start_spawns_more (threads : List Nat) (num_threads : Nat) :
    (start_checking threads num_threads).length = threads.length + num_threads
    ∧ (start_checking threads num_threads).take threads.length = threads := by
  constructor
  · simp [start_checking]
  · simp [start_checking]

/-- C8 counterexample: a default file-mode start over an unopenable file
still starts one worker (the spawn precedes the open, which happens
inside the worker), so the claim that no workers are started fails. -/
theorem C8_worker_started_cex :
    (start_checking [] 1).length = 1
    ∧ ¬ (start_checking [] 1).length = 0
    ∧ check_usernames_from_file (fun _ => true)
        (Except.error "No such file or directory")
      = [FileEvent.readError "No such file or directory"] := by
  refine ⟨by decide, by decide, by decide⟩

/-- C8 amended: the default file-mode start spawns its single worker even
when the file cannot be opened; that worker surfaces the open failure
exactly once as one read-error event (not once per line), produces no
candidates, attempts no probes and emits no progress. -/
theorem C8_source_unavailable (e : String) (running : Nat → Bool) :
    check_usernames_from_file running (Except.error e) = [FileEvent.readError e]
    ∧ (check_usernames_from_file running (Except.error e)).length = 1
    ∧ probesOf (check_usernames_from_file running (Except.error e)) = []
    ∧ progressOf (check_usernames_from_file running (Except.error e)) = []
    ∧ (start_checking [] 1).length = 1 := by
  refine ⟨rfl, rfl, rfl, rfl, by decide⟩

/-- C10: over a file that opens successfully but contains no lines at
all, the worker emits exactly one no-usernames notice, performs zero
probes and zero progress emissions, does not take the read-error path,
and the surrounding run still ends with the finished signal. -/
theorem C10_empty_file_notice :
    check_usernames_from_file (fun _ => true) (Except.ok "")
      = [FileEvent.noUsernames]
    ∧ probesOf (check_usernames_from_file (fun _ => true) (Except.ok "")) = []
    ∧ progressOf (check_usernames_from_file (fun _ => true) (Except.ok "")) = []
    ∧ fileRunSignals fakeTransport (Except.ok "")
      = [Signal.updateTakenLog, Signal.finishedSignal] := by
  refine ⟨by decide, by decide, by decide, by decide⟩

end SteamNameCheck
